import Mathlib

/-!
Verification of the persistence gateway of datamonet/ai-chatbot
(src/prisma/queries.ts over the Prisma schema).

The store is embedded shallowly: each table is a list of rows kept in
insertion order, the process clock (what each call to new Date returns)
is a natural number that ticks on every call, and generated uuid default
values are drawn from a counter.  Each exported query function of
src/prisma/queries.ts becomes a Lean function from the store state to a
result paired with the successor state; a Prisma call that rejects makes
the whole function return an error value, and the effects already applied
before the failing call remain in the state (the source wraps none of the
multi-step functions in a transaction).
-/

namespace AiChatbot

/-- Vote direction, the literal type of the third argument of voteMessage. -/
inductive Direction where
  | up
  | down
deriving DecidableEq, Repr

/-- Domain-named error taxonomy of the layer: a record that was looked up and
is missing, a unique-constraint violation, and a transient store failure. -/
inductive DbError where
  | notFound
  | uniqueViolation
  | transient
deriving DecidableEq, Repr

/-- Row of the User table (model User of the Prisma schema).  The password
column is nullable in the schema, hence Option. -/
structure UserRow where
  id : String
  email : String
  password : Option String
deriving DecidableEq, Repr

/-- Row of the Chat table (model Chat).  DateTime columns are modelled as Nat
instants of the process clock. -/
structure ChatRow where
  id : String
  createdAt : Nat
  title : String
  userId : String
  visibility : String
deriving DecidableEq, Repr

/-- Row of the Message table (model Message).  The Json content column is an
opaque payload, modelled as a String. -/
structure MessageRow where
  id : String
  chatId : String
  role : String
  content : String
  createdAt : Nat
deriving DecidableEq, Repr

/-- Row of the Vote table (model Vote); its primary key is the composite
(chatId, messageId). -/
structure VoteRow where
  chatId : String
  messageId : String
  isUpvoted : Bool
deriving DecidableEq, Repr

/-- Row of the Document table (model Document); rows sharing an id are the
versions of one document, distinguished by createdAt. -/
structure DocumentRow where
  id : String
  createdAt : Nat
  title : String
  content : Option String
  userId : String
deriving DecidableEq, Repr

/-- Row of the Suggestion table (model Suggestion); pinned to one Document
version through the composite pair (documentId, documentCreatedAt). -/
structure SuggestionRow where
  id : String
  documentId : String
  documentCreatedAt : Nat
  originalText : String
  suggestedText : String
  description : Option String
  isResolved : Bool
  userId : String
  createdAt : Nat
deriving DecidableEq, Repr

/-- The whole relational store plus the process clock (now) and the supply of
generated uuid values (nextId). -/
structure DB where
  users : List UserRow
  chats : List ChatRow
  messages : List MessageRow
  votes : List VoteRow
  documents : List DocumentRow
  suggestions : List SuggestionRow
  now : Nat
  nextId : Nat
deriving DecidableEq, Repr

/-- The n-th generated uuid default value. -/
def genId (n : Nat) : String := "uuid-" ++ toString n

/-- Input element of the saveMessages bulk argument. -/
structure MessageInput where
  role : String
  content : String
deriving DecidableEq, Repr

/-- Input element of the saveSuggestions bulk argument. -/
structure SuggestionInput where
  originalText : String
  suggestedText : String
  description : Option String
deriving DecidableEq, Repr

/-- Right rotation of a 32-bit word held as a Nat below 2 ^ 32. -/
def rotr32 (n x : Nat) : Nat := ((x >>> n) ||| (x <<< (32 - n))) % 2 ^ 32

/-- The sigma0 word function of sha256. -/
def smallSigma0 (x : Nat) : Nat := rotr32 7 x ^^^ rotr32 18 x ^^^ (x >>> 3)

/-- The sigma1 word function of sha256. -/
def smallSigma1 (x : Nat) : Nat := rotr32 17 x ^^^ rotr32 19 x ^^^ (x >>> 10)

/-- The Sigma0 word function of sha256. -/
def bigSigma0 (x : Nat) : Nat := rotr32 2 x ^^^ rotr32 13 x ^^^ rotr32 22 x

/-- The Sigma1 word function of sha256. -/
def bigSigma1 (x : Nat) : Nat := rotr32 6 x ^^^ rotr32 11 x ^^^ rotr32 25 x

/-- The 64 round constants of sha256. -/
def sha256K : List Nat :=
  [1116352408, 1899447441, 3049323471, 3921009573, 961987163, 1508970993,
   2453635748, 2870763221, 3624381080, 310598401, 607225278, 1426881987,
   1925078388, 2162078206, 2614888103, 3248222580, 3835390401, 4022224774,
   264347078, 604807628, 770255983, 1249150122, 1555081692, 1996064986,
   2554220882, 2821834349, 2952996808, 3210313671, 3336571891, 3584528711,
   113926993, 338241895, 666307205, 773529912, 1294757372, 1396182291,
   1695183700, 1986661051, 2177026350, 2456956037, 2730485921, 2820302411,
   3259730800, 3345764771, 3516065817, 3600352804, 4094571909, 275423344,
   430227734, 506948616, 659060556, 883997877, 958139571, 1322822218,
   1537002063, 1747873779, 1955562222, 2024104815, 2227730452, 2361852424,
   2428436474, 2756734187, 3204031479, 3329325298]

/-- Working state of the sha256 compression function: eight 32-bit words. -/
structure Hash8 where
  a : Nat
  b : Nat
  c : Nat
  d : Nat
  e : Nat
  f : Nat
  g : Nat
  h : Nat
deriving DecidableEq, Repr

/-- Initial hash value of sha256. -/
def sha256H0 : Hash8 :=
  ⟨1779033703, 3144134277, 1013904242, 2773480762,
   1359893119, 2600822924, 528734635, 1541459225⟩

/-- Pad a byte message to a multiple of 64 bytes: a 0x80 byte, zero bytes, and
the bit length in eight big-endian bytes. -/
def padMessage (msg : List Nat) : List Nat :=
  let L := msg.length
  let k := (119 - L % 64) % 64
  let bits := L * 8
  msg ++ [0x80] ++ List.replicate k 0 ++
    [(bits >>> 56) % 256, (bits >>> 48) % 256, (bits >>> 40) % 256,
     (bits >>> 32) % 256, (bits >>> 24) % 256, (bits >>> 16) % 256,
     (bits >>> 8) % 256, bits % 256]

/-- Group bytes into big-endian 32-bit words. -/
def bytesToWords : List Nat → List Nat
  | a :: b :: c :: d :: rest =>
    (((a * 256 + b) * 256 + c) * 256 + d) :: bytesToWords rest
  | _ => []

/-- Extend the 16 words of one block to the 64-entry message schedule. -/
def schedule (block : List Nat) : List Nat :=
  (List.range 48).foldl
    (fun w _ =>
      w ++ [(smallSigma1 (w.getD (w.length - 2) 0) + w.getD (w.length - 7) 0 +
             smallSigma0 (w.getD (w.length - 15) 0) + w.getD (w.length - 16) 0) % 2 ^ 32])
    block

/-- One round of the sha256 compression function. -/
def sha256Round (st : Hash8) (k w : Nat) : Hash8 :=
  let ch := (st.e &&& st.f) ^^^ ((st.e ^^^ 0xffffffff) &&& st.g)
  let maj := (st.a &&& st.b) ^^^ (st.a &&& st.c) ^^^ (st.b &&& st.c)
  let t1 := (st.h + bigSigma1 st.e + ch + k + w) % 2 ^ 32
  let t2 := (bigSigma0 st.a + maj) % 2 ^ 32
  ⟨(t1 + t2) % 2 ^ 32, st.a, st.b, st.c, (st.d + t1) % 2 ^ 32, st.e, st.f, st.g⟩

/-- Compress one 64-byte block into the running hash value. -/
def compressBlock (h0 : Hash8) (block : List Nat) : Hash8 :=
  let w := schedule (bytesToWords block)
  let st := (sha256K.zip w).foldl (fun st kw => sha256Round st kw.1 kw.2) h0
  ⟨(h0.a + st.a) % 2 ^ 32, (h0.b + st.b) % 2 ^ 32, (h0.c + st.c) % 2 ^ 32,
   (h0.d + st.d) % 2 ^ 32, (h0.e + st.e) % 2 ^ 32, (h0.f + st.f) % 2 ^ 32,
   (h0.g + st.g) % 2 ^ 32, (h0.h + st.h) % 2 ^ 32⟩

/-- Fold the compression function over the given number of 64-byte blocks. -/
def sha256Loop : Nat → Hash8 → List Nat → Hash8
  | 0, h0, _ => h0
  | n + 1, h0, bytes => sha256Loop n (compressBlock h0 (bytes.take 64)) (bytes.drop 64)

/-- Big-endian bytes of a 32-bit word. -/
def wordBytes (w : Nat) : List Nat :=
  [(w >>> 24) % 256, (w >>> 16) % 256, (w >>> 8) % 256, w % 256]

/-- The sha256 digest (32 bytes) of a byte message. -/
def sha256 (msg : List Nat) : List Nat :=
  let padded := padMessage msg
  let hf := sha256Loop (padded.length / 64) sha256H0 padded
  wordBytes hf.a ++ wordBytes hf.b ++ wordBytes hf.c ++ wordBytes hf.d ++
    wordBytes hf.e ++ wordBytes hf.f ++ wordBytes hf.g ++ wordBytes hf.h

/-- Lowercase hexadecimal digit. -/
def hexDigit (n : Nat) : Char := ("0123456789abcdef".toList).getD n '0'

/-- Two lowercase hexadecimal characters of one byte. -/
def byteHex (b : Nat) : List Char := [hexDigit (b / 16 % 16), hexDigit (b % 16)]

/-- Lowercase hexadecimal string of a byte list. -/
def toHex (bytes : List Nat) : String := String.mk ((bytes.map byteHex).flatten)

/-- hashPassword(password): the lowercase hexadecimal sha256 digest of the
utf-8 bytes of the password, as produced by the crypto hash used in the
source. -/
def hashPassword (password : String) : String :=
  toHex (sha256 (password.toUTF8.toList.map (fun b => b.toNat)))

/-- createUser(email, password): hash the password, then prisma.user.create,
which rejects on a duplicate of the unique email column. -/
def createUser (email password : String) (db : DB) : Except DbError UserRow × DB :=
  if db.users.any (fun u => u.email == email) then
    (.error .uniqueViolation, db)
  else
    let u : UserRow :=
      { id := genId db.nextId, email := email, password := some (hashPassword password) }
    (.ok u, { db with users := db.users ++ [u], nextId := db.nextId + 1 })

/-- getUser(email): prisma.user.findUnique on the unique email column. -/
def getUser (email : String) (db : DB) : Option UserRow :=
  db.users.find? (fun u => u.email == email)

/-- createChat(userId, title): prisma.chat.create with a generated id,
createdAt set to new Date() and the schema default visibility of
"private"; the source function accepts no caller-supplied id. -/
def createChat (userId title : String) (db : DB) : ChatRow × DB :=
  let c : ChatRow :=
    { id := genId db.nextId, createdAt := db.now, title := title
      userId := userId, visibility := "private" }
  (c, { db with chats := db.chats ++ [c], now := db.now + 1, nextId := db.nextId + 1 })

/-- getChatById(id): prisma.chat.findUnique on the primary key. -/
def getChatById (id : String) (db : DB) : Option ChatRow :=
  db.chats.find? (fun c => c.id == id)

/-- deleteChatById(id): three sequential store operations with no wrapping
transaction; delete the votes of the chat, then its messages, then the chat
row itself, which rejects when the chat is absent. -/
def deleteChatById (id : String) (db : DB) : Except DbError ChatRow × DB :=
  let votes1 := db.votes.filter (fun v => !(v.chatId == id))
  let messages1 := db.messages.filter (fun m => !(m.chatId == id))
  match db.chats.find? (fun c => c.id == id) with
  | none => (.error .notFound, { db with votes := votes1, messages := messages1 })
  | some c =>
    (.ok c, { db with votes := votes1, messages := messages1
                      chats := db.chats.filter (fun x => !(x.id == id)) })

/-- deleteChatById with the transient-failure possibility of each of its three
awaited store calls made explicit: fails i says whether the i-th call
rejects.  Effects of the calls before the failing one stay applied, since
the source issues the calls one after another outside any transaction. -/
def deleteChatByIdF (fails : Nat → Bool) (id : String) (db : DB) :
    Except DbError ChatRow × DB :=
  if fails 0 then (.error .transient, db) else
  let db1 := { db with votes := db.votes.filter (fun v => !(v.chatId == id)) }
  if fails 1 then (.error .transient, db1) else
  let db2 := { db1 with messages := db1.messages.filter (fun m => !(m.chatId == id)) }
  if fails 2 then (.error .transient, db2) else
  match db2.chats.find? (fun c => c.id == id) with
  | none => (.error .notFound, db2)
  | some c => (.ok c, { db2 with chats := db2.chats.filter (fun x => !(x.id == id)) })

/-- getMessagesByChatId(id): findMany over the chat filter, ordered by
createdAt ascending. -/
def getMessagesByChatId (id : String) (db : DB) : List MessageRow :=
  List.insertionSort (fun a b => a.createdAt ≤ b.createdAt)
    (db.messages.filter (fun m => m.chatId == id))

/-- Helper of saveMessages: issue one prisma.message.create per input, in
argument order, each stamping its own new Date() and drawing a generated
id. -/
def createMessagesGo (chatId : String) :
    List MessageInput → DB → List MessageRow × DB
  | [], db => ([], db)
  | msg :: rest, db =>
    let m : MessageRow :=
      { id := genId db.nextId, chatId := chatId, role := msg.role
        content := msg.content, createdAt := db.now }
    let db1 : DB :=
      { db with messages := db.messages ++ [m], now := db.now + 1
                nextId := db.nextId + 1 }
    let r := createMessagesGo chatId rest db1
    (m :: r.1, r.2)

/-- saveMessages(chatId, messages): one create per input element under
Promise.all, no transaction. -/
def saveMessages (chatId : String) (msgs : List MessageInput) (db : DB) :
    Except DbError (List MessageRow) × DB :=
  let r := createMessagesGo chatId msgs db
  (.ok r.1, r.2)

/-- Helper of saveMessagesF: like createMessagesGo, but the i-th create
rejects transiently when fails i holds; a rejected create persists nothing,
while every other create of the batch still commits, because Promise.all
performs no rollback.  Returns the committed rows and whether any create
failed. -/
def createMessagesGoF (fails : Nat → Bool) (chatId : String) :
    Nat → List MessageInput → DB → List MessageRow × Bool × DB
  | _, [], db => ([], false, db)
  | i, msg :: rest, db =>
    if fails i then
      let db1 : DB := { db with now := db.now + 1, nextId := db.nextId + 1 }
      let r := createMessagesGoF fails chatId (i + 1) rest db1
      (r.1, true, r.2.2)
    else
      let m : MessageRow :=
        { id := genId db.nextId, chatId := chatId, role := msg.role
          content := msg.content, createdAt := db.now }
      let db1 : DB :=
        { db with messages := db.messages ++ [m], now := db.now + 1
                  nextId := db.nextId + 1 }
      let r := createMessagesGoF fails chatId (i + 1) rest db1
      (m :: r.1, r.2.1, r.2.2)

/-- saveMessages with the transient-failure possibility of each underlying
insert made explicit: the aggregate call rejects when any single insert
rejected, but the inserts that succeeded remain committed. -/
def saveMessagesF (fails : Nat → Bool) (chatId : String)
    (msgs : List MessageInput) (db : DB) :
    Except DbError (List MessageRow) × DB :=
  let r := createMessagesGoF fails chatId 0 msgs db
  if r.2.1 then (.error .transient, r.2.2) else (.ok r.1, r.2.2)

/-- getMessageById(id): findUnique on the primary key. -/
def getMessageById (id : String) (db : DB) : Option MessageRow :=
  db.messages.find? (fun m => m.id == id)

/-- deleteMessagesByChatIdAfterTimestamp(chatId, timestamp): deleteMany over
the conjunction chatId = chatId and createdAt gte timestamp; returns the
count of deleted rows. -/
def deleteMessagesByChatIdAfterTimestamp (chatId : String) (timestamp : Nat)
    (db : DB) : Nat × DB :=
  let hit := db.messages.filter (fun m => m.chatId == chatId && timestamp ≤ m.createdAt)
  (hit.length,
   { db with messages :=
      db.messages.filter (fun m => !(m.chatId == chatId && timestamp ≤ m.createdAt)) })

/-- deleteDocumentsByIdAfterTimestamp(id, timestamp): first deleteMany of the
suggestions pinned to versions with documentCreatedAt strictly greater than
the timestamp, then deleteMany of the document rows with createdAt strictly
greater; returns the count of deleted document rows. -/
def deleteDocumentsByIdAfterTimestamp (id : String) (timestamp : Nat)
    (db : DB) : Nat × DB :=
  let db1 :=
    { db with suggestions :=
        db.suggestions.filter (fun s =>
          !(s.documentId == id && timestamp < s.documentCreatedAt)) }
  let removed := db1.documents.filter (fun d => d.id == id && timestamp < d.createdAt)
  (removed.length,
   { db1 with documents :=
      db1.documents.filter (fun d => !(d.id == id && timestamp < d.createdAt)) })

/-- Helper of saveSuggestions: one prisma.suggestion.create per input, in
argument order, stamping the resolved document createdAt, the schema default
isResolved of false, a fresh own createdAt and a generated id. -/
def createSuggestionsGo (documentId : String) (docCreatedAt : Nat)
    (userId : String) :
    List SuggestionInput → DB → List SuggestionRow × DB
  | [], db => ([], db)
  | s :: rest, db =>
    let row : SuggestionRow :=
      { id := genId db.nextId, documentId := documentId
        documentCreatedAt := docCreatedAt, originalText := s.originalText
        suggestedText := s.suggestedText, description := s.description
        isResolved := false, userId := userId, createdAt := db.now }
    let db1 : DB :=
      { db with suggestions := db.suggestions ++ [row], now := db.now + 1
                nextId := db.nextId + 1 }
    let r := createSuggestionsGo documentId docCreatedAt userId rest db1
    (row :: r.1, r.2)

/-- saveSuggestions(documentId, userId, suggestions): resolve the createdAt of
the target document through findUnique, rejecting with the not-found error
when the document is missing, then bulk-insert the suggestion rows. -/
def saveSuggestions (documentId userId : String)
    (sugs : List SuggestionInput) (db : DB) :
    Except DbError (List SuggestionRow) × DB :=
  match db.documents.find? (fun d => d.id == documentId) with
  | none => (.error .notFound, db)
  | some doc =>
    let r := createSuggestionsGo documentId doc.createdAt userId sugs db
    (.ok r.1, r.2)

/-- getVotesByChatId(id): findMany over the chat filter. -/
def getVotesByChatId (id : String) (db : DB) : List VoteRow :=
  db.votes.filter (fun v => v.chatId == id)

/-- voteMessage(chatId, messageId, type): findFirst an existing vote by
messageId alone; when one exists, update through the composite key
chatId_messageId, which rejects when no row carries that exact composite
key; otherwise create the row, which rejects on a duplicate composite
key. -/
def voteMessage (chatId messageId : String) (direction : Direction)
    (db : DB) : Except DbError VoteRow × DB :=
  match db.votes.find? (fun v => v.messageId == messageId) with
  | some _ =>
    if db.votes.any (fun v => v.chatId == chatId && v.messageId == messageId) then
      (.ok { chatId := chatId, messageId := messageId, isUpvoted := direction == .up },
       { db with votes :=
          db.votes.map (fun v =>
            if v.chatId == chatId && v.messageId == messageId then
              { v with isUpvoted := direction == .up }
            else v) })
    else
      (.error .notFound, db)
  | none =>
    if db.votes.any (fun v => v.chatId == chatId && v.messageId == messageId) then
      (.error .uniqueViolation, db)
    else
      (.ok { chatId := chatId, messageId := messageId, isUpvoted := direction == .up },
       { db with votes :=
          db.votes ++ [{ chatId := chatId, messageId := messageId
                         isUpvoted := direction == .up }] })

/-- Store with a single document d1 (two unrelated suggestion rows pinned to
it), used to instantiate saveSuggestions on a missing document id. -/
def exDbSugg : DB :=
  { users := [], chats := [], messages := [], votes := []
    documents := [⟨"d1", 3, "doc", some "body", "u1"⟩]
    suggestions := [⟨"uuid-7", "d1", 3, "a", "b", none, false, "u1", 4⟩]
    now := 5, nextId := 8 }

/-- C2: saveSuggestions against a documentId that has no Document row rejects
with the not-found error and returns the store unchanged, so no Suggestion
row is inserted. -/
theorem saveSuggestions_missing_document (documentId userId : String)
    (sugs : List SuggestionInput) (db : DB)
    (h : ∀ d ∈ db.documents, d.id ≠ documentId) :
    saveSuggestions documentId userId sugs db = (.error .notFound, db) := by
  have hf : db.documents.find? (fun d => d.id == documentId) = none := by
    rw [List.find?_eq_none]
    intro d hd
    simpa using h d hd
  unfold saveSuggestions
  rw [hf]

/-- Witness for C2: a store holding only document d1 rejects suggestions for
document d2 and keeps its suggestion list unchanged. -/
theorem saveSuggestions_missing_document_witness :
    saveSuggestions "d2" "u1" [⟨"x", "y", none⟩] exDbSugg
      = (.error .notFound, exDbSugg) :=
  saveSuggestions_missing_document "d2" "u1" [⟨"x", "y", none⟩] exDbSugg
    (by decide)

/-- C6: deleteMessagesByChatIdAfterTimestamp removes every message of the chat
stamped at or after the timestamp, keeps every message of the chat stamped
strictly before it, leaves the messages of other chats untouched, and
returns the count of deleted rows. -/
theorem deleteMessagesAfterTimestamp_spec (chatId : String) (t : Nat) (db : DB) :
    (∀ m ∈ db.messages, m.chatId = chatId → t ≤ m.createdAt →
        m ∉ (deleteMessagesByChatIdAfterTimestamp chatId t db).2.messages) ∧
    (∀ m ∈ db.messages, m.chatId = chatId → m.createdAt < t →
        m ∈ (deleteMessagesByChatIdAfterTimestamp chatId t db).2.messages) ∧
    ((deleteMessagesByChatIdAfterTimestamp chatId t db).2.messages.filter
        (fun m => !(m.chatId == chatId))
      = db.messages.filter (fun m => !(m.chatId == chatId))) ∧
    (deleteMessagesByChatIdAfterTimestamp chatId t db).1
      = (db.messages.filter (fun m => m.chatId == chatId && t ≤ m.createdAt)).length := by
  refine ⟨?_, ?_, ?_, rfl⟩
  · intro m hm hc ht hmem
    unfold deleteMessagesByChatIdAfterTimestamp at hmem
    simp only [List.mem_filter] at hmem
    simp [hc, ht] at hmem
  · intro m hm hc ht
    unfold deleteMessagesByChatIdAfterTimestamp
    simp only [List.mem_filter]
    refine ⟨hm, ?_⟩
    simp [hc]
    omega
  · unfold deleteMessagesByChatIdAfterTimestamp
    simp only [List.filter_filter]
    apply List.filter_congr
    intro m hm
    cases hc : (m.chatId == chatId) <;> simp [hc]

/-- Witness for C6 at a store with three messages: the late message of chat c1
is deleted, the early one survives, the message of chat c2 survives, and the
count is one. -/
theorem deleteMessagesAfterTimestamp_witness :
    (⟨"m2", "c1", "assistant", "late", 9⟩ : MessageRow) ∉
      (deleteMessagesByChatIdAfterTimestamp "c1" 5
        { users := [], chats := [], messages :=
            [⟨"m1", "c1", "user", "early", 2⟩, ⟨"m2", "c1", "assistant", "late", 9⟩,
             ⟨"m3", "c2", "user", "other", 9⟩]
          votes := [], documents := [], suggestions := [], now := 10, nextId := 3 }).2.messages ∧
    (⟨"m1", "c1", "user", "early", 2⟩ : MessageRow) ∈
      (deleteMessagesByChatIdAfterTimestamp "c1" 5
        { users := [], chats := [], messages :=
            [⟨"m1", "c1", "user", "early", 2⟩, ⟨"m2", "c1", "assistant", "late", 9⟩,
             ⟨"m3", "c2", "user", "other", 9⟩]
          votes := [], documents := [], suggestions := [], now := 10, nextId := 3 }).2.messages ∧
    (deleteMessagesByChatIdAfterTimestamp "c1" 5
        { users := [], chats := [], messages :=
            [⟨"m1", "c1", "user", "early", 2⟩, ⟨"m2", "c1", "assistant", "late", 9⟩,
             ⟨"m3", "c2", "user", "other", 9⟩]
          votes := [], documents := [], suggestions := [], now := 10, nextId := 3 }).1 = 1 := by
  refine ⟨?_, ?_, ?_⟩
  · exact (deleteMessagesAfterTimestamp_spec "c1" 5 _).1
      ⟨"m2", "c1", "assistant", "late", 9⟩ (by decide) rfl (by decide)
  · exact (deleteMessagesAfterTimestamp_spec "c1" 5 _).2.1
      ⟨"m1", "c1", "user", "early", 2⟩ (by decide) rfl (by decide)
  · exact (deleteMessagesAfterTimestamp_spec "c1" 5 _).2.2.2.trans (by decide)

/-- C7: deleting document versions of an id after a timestamp t1, when the
store holds a version at t1 and a later version at t2, removes the t2
version together with every suggestion pinned to a version later than t1,
and keeps the t1 version and its suggestions. -/
theorem deleteDocumentsAfterTimestamp_two_versions (id : String) (t1 t2 : Nat)
    (db : DB) (d1 d2 : DocumentRow) (h12 : t1 < t2)
    (hd1 : d1 ∈ db.documents) (hd1i : d1.id = id) (hd1t : d1.createdAt = t1)
    (hd2 : d2 ∈ db.documents) (hd2i : d2.id = id) (hd2t : d2.createdAt = t2) :
    d2 ∉ (deleteDocumentsByIdAfterTimestamp id t1 db).2.documents ∧
    d1 ∈ (deleteDocumentsByIdAfterTimestamp id t1 db).2.documents ∧
    (∀ s ∈ db.suggestions, s.documentId = id → t1 < s.documentCreatedAt →
        s ∉ (deleteDocumentsByIdAfterTimestamp id t1 db).2.suggestions) ∧
    (∀ s ∈ db.suggestions, s.documentId = id → s.documentCreatedAt ≤ t1 →
        s ∈ (deleteDocumentsByIdAfterTimestamp id t1 db).2.suggestions) := by
  refine ⟨?_, ?_, ?_, ?_⟩
  · intro hmem
    unfold deleteDocumentsByIdAfterTimestamp at hmem
    simp only [List.mem_filter] at hmem
    simp [hd2i, hd2t, h12] at hmem
  · unfold deleteDocumentsByIdAfterTimestamp
    simp only [List.mem_filter]
    refine ⟨hd1, ?_⟩
    simp [hd1i, hd1t]
  · intro s hs hsi hst hmem
    unfold deleteDocumentsByIdAfterTimestamp at hmem
    simp only [List.mem_filter] at hmem
    simp [hsi, hst] at hmem
  · intro s hs hsi hst
    unfold deleteDocumentsByIdAfterTimestamp
    simp only [List.mem_filter]
    refine ⟨hs, ?_⟩
    simp [hsi]
    omega

/-- Store with two versions of document d1 (times 2 and 6), one suggestion
pinned to each version, used as the C7 witness. -/
def exDbDocs : DB :=
  { users := [], chats := [], messages := [], votes := []
    documents := [⟨"d1", 2, "doc", some "v1", "u1"⟩, ⟨"d1", 6, "doc", some "v2", "u1"⟩]
    suggestions :=
      [⟨"uuid-1", "d1", 2, "a", "b", none, false, "u1", 3⟩,
       ⟨"uuid-2", "d1", 6, "c", "d", none, false, "u1", 7⟩]
    now := 8, nextId := 3 }

/-- Witness for C7: after deleting past time 2, the version at 6 and its
suggestion are gone while the version at 2 and its suggestion remain. -/
theorem deleteDocumentsAfterTimestamp_two_versions_witness :
    (⟨"d1", 6, "doc", some "v2", "u1"⟩ : DocumentRow) ∉
        (deleteDocumentsByIdAfterTimestamp "d1" 2 exDbDocs).2.documents ∧
    (⟨"d1", 2, "doc", some "v1", "u1"⟩ : DocumentRow) ∈
        (deleteDocumentsByIdAfterTimestamp "d1" 2 exDbDocs).2.documents ∧
    (⟨"uuid-2", "d1", 6, "c", "d", none, false, "u1", 7⟩ : SuggestionRow) ∉
        (deleteDocumentsByIdAfterTimestamp "d1" 2 exDbDocs).2.suggestions ∧
    (⟨"uuid-1", "d1", 2, "a", "b", none, false, "u1", 3⟩ : SuggestionRow) ∈
        (deleteDocumentsByIdAfterTimestamp "d1" 2 exDbDocs).2.suggestions := by
  have h := deleteDocumentsAfterTimestamp_two_versions "d1" 2 6 exDbDocs
    ⟨"d1", 2, "doc", some "v1", "u1"⟩ ⟨"d1", 6, "doc", some "v2", "u1"⟩
    (by decide) (by decide) rfl rfl (by decide) rfl rfl
  refine ⟨h.1, h.2.1, ?_, ?_⟩
  · exact h.2.2.1 ⟨"uuid-2", "d1", 6, "c", "d", none, false, "u1", 7⟩
      (by decide) rfl (by decide)
  · exact h.2.2.2 ⟨"uuid-1", "d1", 2, "a", "b", none, false, "u1", 3⟩
      (by decide) rfl (by decide)

/-- The row rewrite applied by the update branch of voteMessage. -/
def voteUpd (chatId messageId : String) (b : Bool) (v : VoteRow) : VoteRow :=
  if v.chatId == chatId && v.messageId == messageId then
    { v with isUpvoted := b }
  else v

theorem voteUpd_chatId (chatId messageId : String) (b : Bool) (v : VoteRow) :
    (voteUpd chatId messageId b v).chatId = v.chatId := by
  unfold voteUpd
  split <;> rfl

theorem voteUpd_messageId (chatId messageId : String) (b : Bool) (v : VoteRow) :
    (voteUpd chatId messageId b v).messageId = v.messageId := by
  unfold voteUpd
  split <;> rfl

/-- Applying two update passes for the same composite key collapses to the
second pass. -/
theorem voteUpd_comp (chatId messageId : String) (b1 b2 : Bool) (v : VoteRow) :
    voteUpd chatId messageId b2 (voteUpd chatId messageId b1 v)
      = voteUpd chatId messageId b2 v := by
  unfold voteUpd
  by_cases h : (v.chatId == chatId && v.messageId == messageId) = true <;>
    simp [h]

/-- When every vote of the store carrying the messageId sits in the very chat
being voted and one such vote exists, an update pass leaves exactly one row
for the composite key, carrying the written flag. -/
theorem filter_map_voteUpd (chatId messageId : String) (b : Bool) :
    ∀ l : List VoteRow,
      l.Pairwise (fun x y => ¬(x.chatId = y.chatId ∧ x.messageId = y.messageId)) →
      (∀ v ∈ l, v.messageId = messageId → v.chatId = chatId) →
      (∃ v ∈ l, v.messageId = messageId) →
      (l.map (voteUpd chatId messageId b)).filter
          (fun v => v.chatId == chatId && v.messageId == messageId)
        = [⟨chatId, messageId, b⟩]
  | [], _, _, hex => by simp at hex
  | v :: t, hPK, hSame, hex => by
    rw [List.pairwise_cons] at hPK
    by_cases hk : (v.chatId == chatId && v.messageId == messageId) = true
    · have hkc : v.chatId = chatId := by
        have := hk
        simp at this
        exact this.1
      have hkm : v.messageId = messageId := by
        have := hk
        simp at this
        exact this.2
      have hhead : voteUpd chatId messageId b v = ⟨chatId, messageId, b⟩ := by
        unfold voteUpd
        rw [if_pos hk]
        cases v
        simp_all
      have htail : ∀ w ∈ t, w.messageId ≠ messageId := by
        intro w hw hwm
        have hwc : w.chatId = chatId := hSame w (List.mem_cons_of_mem v hw) hwm
        exact hPK.1 w hw ⟨hkc.trans hwc.symm, hkm.trans hwm.symm⟩
      have htail2 : (t.map (voteUpd chatId messageId b)).filter
          (fun v => v.chatId == chatId && v.messageId == messageId) = [] := by
        rw [List.filter_eq_nil_iff]
        intro x hx
        rw [List.mem_map] at hx
        obtain ⟨w, hw, rfl⟩ := hx
        simp [voteUpd_messageId]
        intro _
        exact htail w hw
      simp only [List.map_cons, List.filter_cons]
      rw [hhead]
      simp only [htail2]
      simp
    · have hm : v.messageId ≠ messageId := by
        intro hvm
        exact hk (by simp [hSame v (List.mem_cons_self v t) hvm, hvm])
      have hex' : ∃ w ∈ t, w.messageId = messageId := by
        obtain ⟨w, hw, hwm⟩ := hex
        rcases List.mem_cons.mp hw with rfl | hw'
        · exact absurd hwm hm
        · exact ⟨w, hw', hwm⟩
      have ih := filter_map_voteUpd chatId messageId b t hPK.2
        (fun w hw hwm => hSame w (List.mem_cons_of_mem v hw) hwm) hex'
      simp only [List.map_cons, List.filter_cons]
      have hvu : voteUpd chatId messageId b v = v := by
        unfold voteUpd
        rw [if_neg hk]
      rw [hvu, if_neg (by simpa using hk)]
      exact ih

/-- The create branch of voteMessage: when no vote of the store carries the
messageId, the call appends one new row for the composite key. -/
theorem voteMessage_create (chatId messageId : String) (d : Direction) (db : DB)
    (h : ∀ v ∈ db.votes, v.messageId ≠ messageId) :
    voteMessage chatId messageId d db
      = (.ok ⟨chatId, messageId, d == .up⟩,
         { db with votes := db.votes ++ [⟨chatId, messageId, d == .up⟩] }) := by
  have hf : db.votes.find? (fun v => v.messageId == messageId) = none := by
    rw [List.find?_eq_none]
    intro v hv
    simpa using h v hv
  have ha : db.votes.any
      (fun v => v.chatId == chatId && v.messageId == messageId) = false := by
    rw [List.any_eq_false]
    intro v hv
    simp
    intro _
    exact h v hv
  unfold voteMessage
  rw [hf, ha]
  rfl

/-- The update branch of voteMessage: when some vote of the store carries the
messageId and they all sit in the voted chat, the call rewrites the row of
the composite key. -/
theorem voteMessage_update (chatId messageId : String) (d : Direction) (db : DB)
    (hex : ∃ v ∈ db.votes, v.messageId = messageId)
    (hSame : ∀ v ∈ db.votes, v.messageId = messageId → v.chatId = chatId) :
    voteMessage chatId messageId d db
      = (.ok ⟨chatId, messageId, d == .up⟩,
         { db with votes := db.votes.map (voteUpd chatId messageId (d == .up)) }) := by
  obtain ⟨w, hw, hwm⟩ := hex
  have hsome : (db.votes.find? (fun v => v.messageId == messageId)).isSome := by
    rw [List.find?_isSome]
    exact ⟨w, hw, by simp [hwm]⟩
  have ha : db.votes.any
      (fun v => v.chatId == chatId && v.messageId == messageId) = true := by
    rw [List.any_eq_true]
    exact ⟨w, hw, by simp [hwm, hSame w hw hwm]⟩
  unfold voteMessage
  cases hf : db.votes.find? (fun v => v.messageId == messageId) with
  | none => rw [hf] at hsome; simp at hsome
  | some u =>
    rw [ha]
    simp only [if_true]
    rfl

/-- C1: voting the same (chatId, messageId) twice, in a store whose votes for
that message all sit in that same chat, succeeds both times (in particular
no duplicate-key rejection) and leaves exactly one vote row for the
composite key, whose isUpvoted reflects the second direction. -/
theorem voteMessage_twice_upsert (chatId messageId : String) (d1 d2 : Direction)
    (db : DB)
    (hPK : db.votes.Pairwise (fun x y => ¬(x.chatId = y.chatId ∧ x.messageId = y.messageId)))
    (hSame : ∀ v ∈ db.votes, v.messageId = messageId → v.chatId = chatId) :
    (voteMessage chatId messageId d1 db).1 = .ok ⟨chatId, messageId, d1 == .up⟩ ∧
    (voteMessage chatId messageId d2 (voteMessage chatId messageId d1 db).2).1
      = .ok ⟨chatId, messageId, d2 == .up⟩ ∧
    ((voteMessage chatId messageId d2 (voteMessage chatId messageId d1 db).2).2.votes.filter
        (fun v => v.chatId == chatId && v.messageId == messageId))
      = [⟨chatId, messageId, d2 == .up⟩] := by
  by_cases hex : ∃ v ∈ db.votes, v.messageId = messageId
  · rw [voteMessage_update chatId messageId d1 db hex hSame]
    have hmem : ∀ x ∈ db.votes.map (voteUpd chatId messageId (d1 == .up)),
        x.messageId = messageId → x.chatId = chatId := by
      intro x hx
      rw [List.mem_map] at hx
      obtain ⟨w, hw, rfl⟩ := hx
      rw [voteUpd_messageId, voteUpd_chatId]
      exact hSame w hw
    have hex2 : ∃ x ∈ db.votes.map (voteUpd chatId messageId (d1 == .up)),
        x.messageId = messageId := by
      obtain ⟨w, hw, hwm⟩ := hex
      exact ⟨voteUpd chatId messageId (d1 == .up) w, List.mem_map_of_mem _ hw,
        (voteUpd_messageId _ _ _ _).trans hwm⟩
    rw [voteMessage_update chatId messageId d2 _ hex2 hmem]
    refine ⟨rfl, rfl, ?_⟩
    simp only [List.map_map]
    have hcomp : db.votes.map (voteUpd chatId messageId (d2 == .up) ∘
        voteUpd chatId messageId (d1 == .up))
        = db.votes.map (voteUpd chatId messageId (d2 == .up)) := by
      apply List.map_congr_left
      intro v _
      exact voteUpd_comp chatId messageId _ _ v
    rw [hcomp]
    exact filter_map_voteUpd chatId messageId (d2 == .up) db.votes hPK hSame hex
  · have hno : ∀ v ∈ db.votes, v.messageId ≠ messageId := by
      intro v hv hvm
      exact hex ⟨v, hv, hvm⟩
    rw [voteMessage_create chatId messageId d1 db hno]
    have hex2 : ∃ x ∈ db.votes ++ [(⟨chatId, messageId, d1 == .up⟩ : VoteRow)],
        x.messageId = messageId := by
      exact ⟨⟨chatId, messageId, d1 == .up⟩, by simp, rfl⟩
    have hmem : ∀ x ∈ db.votes ++ [(⟨chatId, messageId, d1 == .up⟩ : VoteRow)],
        x.messageId = messageId → x.chatId = chatId := by
      intro x hx hxm
      rcases List.mem_append.mp hx with hx' | hx'
      · exact absurd hxm (hno x hx')
      · simp at hx'
        rw [hx']
    rw [voteMessage_update chatId messageId d2 _ hex2 hmem]
    refine ⟨rfl, rfl, ?_⟩
    have hPK2 : (db.votes ++ [(⟨chatId, messageId, d1 == .up⟩ : VoteRow)]).Pairwise
        (fun x y => ¬(x.chatId = y.chatId ∧ x.messageId = y.messageId)) := by
      rw [List.pairwise_append]
      refine ⟨hPK, by simp, ?_⟩
      intro x hx y hy
      simp at hy
      rw [hy]
      intro hxy
      exact hno x hx hxy.2
    exact filter_map_voteUpd chatId messageId (d2 == .up) _ hPK2 hmem hex2

/-- Store with one unrelated vote, used as the C1 witness. -/
def exDbVote : DB :=
  { users := [], chats := [], messages := []
    votes := [⟨"c9", "m9", false⟩]
    documents := [], suggestions := [], now := 0, nextId := 0 }

/-- Witness for C1: an up vote then a down vote on (c1, m1) both succeed and
leave one vote row for (c1, m1), not upvoted. -/
theorem voteMessage_twice_upsert_witness :
    (voteMessage "c1" "m1" .up exDbVote).1 = .ok ⟨"c1", "m1", true⟩ ∧
    (voteMessage "c1" "m1" .down (voteMessage "c1" "m1" .up exDbVote).2).1
      = .ok ⟨"c1", "m1", false⟩ ∧
    ((voteMessage "c1" "m1" .down (voteMessage "c1" "m1" .up exDbVote).2).2.votes.filter
        (fun v => v.chatId == "c1" && v.messageId == "m1"))
      = [⟨"c1", "m1", false⟩] :=
  voteMessage_twice_upsert "c1" "m1" .up .down exDbVote (by decide) (by decide)

/-- C10: when a message already carries a vote in chat A and no vote row
exists for chat B, voting it under chat B takes the update branch (the
lookup matches on messageId alone), which targets the absent composite row
(B, messageId): the call rejects with the not-found error and the store is
unchanged, so no new vote row is ever inserted. -/
theorem voteMessage_cross_chat_fails (chatA chatB messageId : String)
    (d : Direction) (db : DB) (v : VoteRow)
    (hv : v ∈ db.votes) (hvm : v.messageId = messageId) (hvc : v.chatId = chatA)
    (hAB : chatB ≠ chatA)
    (hnoB : ∀ w ∈ db.votes, w.messageId = messageId → w.chatId ≠ chatB) :
    voteMessage chatB messageId d db = (.error .notFound, db) := by
  have hsome : (db.votes.find? (fun w => w.messageId == messageId)).isSome := by
    rw [List.find?_isSome]
    exact ⟨v, hv, by simp [hvm]⟩
  have ha : db.votes.any
      (fun w => w.chatId == chatB && w.messageId == messageId) = false := by
    rw [List.any_eq_false]
    intro w hw
    simp
    intro hwc hwm
    exact absurd hwc (hnoB w hw hwm)
  unfold voteMessage
  cases hf : db.votes.find? (fun w => w.messageId == messageId) with
  | none => rw [hf] at hsome; simp at hsome
  | some u =>
    rw [ha]
    rfl

/-- Store where message m1 already carries a vote in chat cA, used as the C10
witness. -/
def exDbCross : DB :=
  { users := [], chats := [], messages := []
    votes := [⟨"cA", "m1", true⟩]
    documents := [], suggestions := [], now := 0, nextId := 0 }

/-- Witness for C10: voting message m1 under chat cB rejects with the
not-found error and leaves the store unchanged. -/
theorem voteMessage_cross_chat_fails_witness :
    voteMessage "cB" "m1" .up exDbCross = (.error .notFound, exDbCross) :=
  voteMessage_cross_chat_fails "cA" "cB" "m1" .up exDbCross ⟨"cA", "m1", true⟩
    (by decide) rfl rfl (by decide) (by decide)

/-- Store with chat c1, one message of c1 and one vote of c1, used for the C3
counterexample and witness. -/
def exDbChat : DB :=
  { users := [], chats := [⟨"c1", 0, "t1", "u1", "private"⟩]
    messages := [⟨"m1", "c1", "user", "hi", 1⟩]
    votes := [⟨"c1", "m1", true⟩]
    documents := [], suggestions := [], now := 2, nextId := 9 }

/-- C3 counterexample: the three deletions of deleteChatById are issued as
separate sequential store calls, not one transaction — when the vote
deletion has succeeded and the message deletion then rejects, the aggregate
call fails yet the vote rows are already gone. -/
theorem deleteChatById_not_one_transaction :
    (deleteChatByIdF (fun i => i == 1) "c1" exDbChat).1 = .error .transient ∧
    (deleteChatByIdF (fun i => i == 1) "c1" exDbChat).2.votes = [] ∧
    exDbChat.votes ≠ [] := ⟨rfl, by decide, by decide⟩

/-- With no step failing, the failure-aware embedding of deleteChatById
coincides with deleteChatById. -/
theorem deleteChatByIdF_no_failure (id : String) (db : DB) :
    deleteChatByIdF (fun _ => false) id db = deleteChatById id db := rfl

/-- C3 amended: deleteChatById deletes all votes of the chat, then all its
messages, then the chat row, as a sequence of separate store operations (no
wrapping transaction); on a present chat it returns the deleted snapshot and
afterwards no vote or message row references the chat and getChatById on it
returns none; on an absent chat that no row references it rejects with the
not-found error and leaves the store unchanged. -/
theorem deleteChatById_spec (id : String) (db : DB) :
    (∀ c, getChatById id db = some c →
      (deleteChatById id db).1 = .ok c ∧
      (deleteChatById id db).2.votes.filter (fun v => v.chatId == id) = [] ∧
      (deleteChatById id db).2.messages.filter (fun m => m.chatId == id) = [] ∧
      getChatById id (deleteChatById id db).2 = none) ∧
    (getChatById id db = none →
      (∀ v ∈ db.votes, v.chatId ≠ id) →
      (∀ m ∈ db.messages, m.chatId ≠ id) →
      deleteChatById id db = (.error .notFound, db)) := by
  constructor
  · intro c hc
    unfold getChatById at hc
    unfold deleteChatById
    rw [hc]
    refine ⟨rfl, ?_, ?_, ?_⟩
    · rw [List.filter_filter]
      rw [List.filter_eq_nil_iff]
      intro v _
      cases h : v.chatId == id <;> simp [h]
    · rw [List.filter_filter]
      rw [List.filter_eq_nil_iff]
      intro m _
      cases h : m.chatId == id <;> simp [h]
    · unfold getChatById
      rw [List.find?_eq_none]
      intro x hx
      rw [List.mem_filter] at hx
      simpa using hx.2
  · intro hc hv hm
    unfold getChatById at hc
    have h1 : db.votes.filter (fun v => !(v.chatId == id)) = db.votes := by
      rw [List.filter_eq_self]
      intro v hvm
      simpa using hv v hvm
    have h2 : db.messages.filter (fun m => !(m.chatId == id)) = db.messages := by
      rw [List.filter_eq_self]
      intro m hmm
      simpa using hm m hmm
    unfold deleteChatById
    rw [hc, h1, h2]

/-- Witness for C3 at exDbChat: deleting present chat c1 returns its snapshot
and clears every reference, and deleting absent chat c9 rejects with the
not-found error leaving the store unchanged. -/
theorem deleteChatById_spec_witness :
    ((deleteChatById "c1" exDbChat).1 = .ok ⟨"c1", 0, "t1", "u1", "private"⟩ ∧
     (deleteChatById "c1" exDbChat).2.votes.filter (fun v => v.chatId == "c1") = [] ∧
     (deleteChatById "c1" exDbChat).2.messages.filter (fun m => m.chatId == "c1") = [] ∧
     getChatById "c1" (deleteChatById "c1" exDbChat).2 = none) ∧
    deleteChatById "c9" exDbChat = (.error .notFound, exDbChat) :=
  ⟨(deleteChatById_spec "c1" exDbChat).1 ⟨"c1", 0, "t1", "u1", "private"⟩ (by decide),
   (deleteChatById_spec "c9" exDbChat).2 (by decide) (by decide) (by decide)⟩

/-- Store with chat c1 and no message, used for the C4 failing input. -/
def exDbBulk : DB :=
  { users := [], chats := [⟨"c1", 0, "t", "u1", "private"⟩], messages := []
    votes := [], documents := [], suggestions := [], now := 1, nextId := 0 }

/-- C4: the failing input evaluated — a batch of two messages whose second
insert rejects transiently makes the aggregate saveMessages call reject
while the first message stays persisted, a proper non-empty subset of the
batch: the bulk insert is one create per element under Promise.all with no
transaction, hence not all-or-nothing. -/
theorem saveMessages_partial_failure_eval :
    (saveMessagesF (fun i => i == 1) "c1"
        [⟨"user", "hi"⟩, ⟨"assistant", "hello"⟩] exDbBulk).1 = .error .transient ∧
    ((saveMessagesF (fun i => i == 1) "c1"
        [⟨"user", "hi"⟩, ⟨"assistant", "hello"⟩] exDbBulk).2.messages.map
      (fun m => m.content)) = ["hi"] := ⟨rfl, by decide⟩

/-- With no insert failing, the failure-aware helper of saveMessages coincides
with the plain helper. -/
theorem createMessagesGoF_no_failure (chatId : String) :
    ∀ (msgs : List MessageInput) (i : Nat) (db : DB),
      createMessagesGoF (fun _ => false) chatId i msgs db
        = ((createMessagesGo chatId msgs db).1, false,
           (createMessagesGo chatId msgs db).2)
  | [], _, _ => rfl
  | msg :: rest, i, db => by
    simp only [createMessagesGoF, createMessagesGo]
    rw [if_neg (by decide : ¬(false = true))]
    rw [createMessagesGoF_no_failure chatId rest (i + 1)]

/-- With no insert failing, the failure-aware embedding of saveMessages
coincides with saveMessages. -/
theorem saveMessagesF_no_failure (chatId : String) (msgs : List MessageInput)
    (db : DB) :
    saveMessagesF (fun _ => false) chatId msgs db = saveMessages chatId msgs db := by
  unfold saveMessagesF saveMessages
  rw [createMessagesGoF_no_failure]
  simp

/-- The messages table after the saveMessages helper is the old table with the
created rows appended. -/
theorem createMessagesGo_messages (chatId : String) :
    ∀ (msgs : List MessageInput) (db : DB),
      (createMessagesGo chatId msgs db).2.messages
        = db.messages ++ (createMessagesGo chatId msgs db).1
  | [], db => by simp [createMessagesGo]
  | msg :: rest, db => by
    simp only [createMessagesGo]
    rw [createMessagesGo_messages chatId rest]
    simp

/-- Every row created by the saveMessages helper carries the given chatId. -/
theorem createMessagesGo_chatId (chatId : String) :
    ∀ (msgs : List MessageInput) (db : DB) (m : MessageRow),
      m ∈ (createMessagesGo chatId msgs db).1 → m.chatId = chatId
  | [], _, m => by simp [createMessagesGo]
  | msg :: rest, db, m => by
    simp only [createMessagesGo, List.mem_cons]
    rintro (rfl | hm)
    · rfl
    · exact createMessagesGo_chatId chatId rest _ m hm

/-- Every row created by the saveMessages helper is stamped at or after the
clock it started from. -/
theorem createMessagesGo_now_le (chatId : String) :
    ∀ (msgs : List MessageInput) (db : DB) (m : MessageRow),
      m ∈ (createMessagesGo chatId msgs db).1 → db.now ≤ m.createdAt
  | [], _, m => by simp [createMessagesGo]
  | msg :: rest, db, m => by
    simp only [createMessagesGo, List.mem_cons]
    rintro (rfl | hm)
    · exact Nat.le_refl _
    · exact Nat.le_of_succ_le (createMessagesGo_now_le chatId rest _ m hm)

/-- The rows created by the saveMessages helper are sorted by createdAt: the
per-row new Date stamps are taken in argument order on a ticking clock. -/
theorem createMessagesGo_sorted (chatId : String) :
    ∀ (msgs : List MessageInput) (db : DB),
      List.Sorted (fun a b : MessageRow => a.createdAt ≤ b.createdAt)
        (createMessagesGo chatId msgs db).1
  | [], _ => by simp [createMessagesGo, List.Sorted]
  | msg :: rest, db => by
    simp only [createMessagesGo]
    rw [List.sorted_cons]
    refine ⟨?_, createMessagesGo_sorted chatId rest _⟩
    intro m hm
    exact Nat.le_of_succ_le (createMessagesGo_now_le chatId rest _ m hm)

/-- The created rows reproduce the role and content of the inputs in order. -/
theorem createMessagesGo_shape (chatId : String) :
    ∀ (msgs : List MessageInput) (db : DB),
      (createMessagesGo chatId msgs db).1.map (fun m => (m.role, m.content))
        = msgs.map (fun i => (i.role, i.content))
  | [], _ => rfl
  | msg :: rest, db => by
    simp only [createMessagesGo, List.map_cons]
    rw [createMessagesGo_shape chatId rest]

/-- C5: on a chat with no pre-existing messages, saveMessages then
getMessagesByChatId returns exactly the inserted rows in the insertion order
of the input batch, and those rows reproduce the input roles and contents in
order. -/
theorem saveMessages_then_getMessages (chatId : String) (msgs : List MessageInput)
    (db : DB) (h : db.messages.filter (fun m => m.chatId == chatId) = []) :
    ∀ saved, (saveMessages chatId msgs db).1 = .ok saved →
      getMessagesByChatId chatId (saveMessages chatId msgs db).2 = saved ∧
      saved.map (fun m => (m.role, m.content)) = msgs.map (fun i => (i.role, i.content)) := by
  intro saved hs
  have hsv : saved = (createMessagesGo chatId msgs db).1 := by
    unfold saveMessages at hs
    cases hs
    rfl
  subst hsv
  refine ⟨?_, createMessagesGo_shape chatId msgs db⟩
  show List.insertionSort _ ((createMessagesGo chatId msgs db).2.messages.filter
      (fun m => m.chatId == chatId)) = _
  rw [createMessagesGo_messages, List.filter_append, h]
  rw [List.filter_eq_self.mpr
    (fun m hm => by simp [createMessagesGo_chatId chatId msgs db m hm])]
  rw [List.nil_append]
  exact (createMessagesGo_sorted chatId msgs db).insertionSort_eq

/-- Fresh store (clock 1), used as the C5 witness. -/
def exDbMsgs : DB := ⟨[], [], [], [], [], [], 1, 0⟩

/-- Witness for C5: saving a user message then an assistant message into chat
c1 of a fresh store and reading the chat back yields exactly those two rows
in order. -/
theorem saveMessages_then_getMessages_witness :
    getMessagesByChatId "c1"
        (saveMessages "c1" [⟨"user", "hi"⟩, ⟨"assistant", "hello"⟩] exDbMsgs).2
      = [⟨"uuid-0", "c1", "user", "hi", 1⟩, ⟨"uuid-1", "c1", "assistant", "hello", 2⟩] ∧
    ([⟨"uuid-0", "c1", "user", "hi", 1⟩,
      ⟨"uuid-1", "c1", "assistant", "hello", 2⟩] : List MessageRow).map
        (fun m => (m.role, m.content))
      = ([⟨"user", "hi"⟩, ⟨"assistant", "hello"⟩] : List MessageInput).map
          (fun i => (i.role, i.content)) :=
  saveMessages_then_getMessages "c1" [⟨"user", "hi"⟩, ⟨"assistant", "hello"⟩]
    exDbMsgs (by decide)
    [⟨"uuid-0", "c1", "user", "hi", 1⟩, ⟨"uuid-1", "c1", "assistant", "hello", 2⟩]
    rfl

/-- The empty store. -/
def emptyDB : DB := ⟨[], [], [], [], [], [], 0, 0⟩

/-- C9 counterexample: the source createChat takes only userId and title — no
caller-supplied id parameter exists and the id is always generated, so a
chat with explicit id c1 cannot be created: after the only possible call the
created chat carries the generated id and getChatById c1 finds nothing. -/
theorem createChat_no_caller_id :
    (createChat "u1" "t1" emptyDB).1.id = "uuid-0" ∧
    ("uuid-0" : String) ≠ "c1" ∧
    getChatById "c1" (createChat "u1" "t1" emptyDB).2 = none := by decide

/-- C9 amended: createChat accepts no caller-supplied id and generates one;
the created chat has createdAt equal to the current clock and visibility
private, and getChatById on the generated id returns the created chat. -/
theorem createChat_spec (userId title : String) (db : DB)
    (hfresh : ∀ c ∈ db.chats, c.id ≠ genId db.nextId) :
    (createChat userId title db).1.visibility = "private" ∧
    (createChat userId title db).1.createdAt = db.now ∧
    getChatById (createChat userId title db).1.id (createChat userId title db).2
      = some (createChat userId title db).1 := by
  refine ⟨rfl, rfl, ?_⟩
  show (db.chats ++ [(⟨genId db.nextId, db.now, title, userId, "private"⟩ : ChatRow)]).find?
      (fun c => c.id == genId db.nextId)
    = some ⟨genId db.nextId, db.now, title, userId, "private"⟩
  rw [List.find?_append]
  have h1 : db.chats.find? (fun c => c.id == genId db.nextId) = none := by
    rw [List.find?_eq_none]
    intro c hcm
    simpa using hfresh c hcm
  rw [h1]
  simp

/-- Witness for C9 (amended) at the empty store. -/
theorem createChat_spec_witness :
    (createChat "u1" "t1" emptyDB).1.visibility = "private" ∧
    (createChat "u1" "t1" emptyDB).1.createdAt = 0 ∧
    getChatById (createChat "u1" "t1" emptyDB).1.id (createChat "u1" "t1" emptyDB).2
      = some (createChat "u1" "t1" emptyDB).1 :=
  createChat_spec "u1" "t1" emptyDB (by decide)

/-- The hexadecimal expansion of a byte list has two characters per byte. -/
theorem flatten_byteHex_length :
    ∀ bytes : List Nat, ((bytes.map byteHex).flatten).length = 2 * bytes.length
  | [] => rfl
  | b :: rest => by
    simp only [List.map_cons, List.flatten_cons, List.length_append,
      flatten_byteHex_length rest, byteHex, List.length_cons, List.length_nil,
      List.length_cons]
    omega

/-- A sha256 digest has 32 bytes. -/
theorem sha256_length (msg : List Nat) : (sha256 msg).length = 32 := by
  simp [sha256, wordBytes]

/-- The hexadecimal sha256 digest of any password has 64 characters. -/
theorem hashPassword_length (p : String) : (hashPassword p).length = 64 := by
  show ((sha256 (p.toUTF8.toList.map (fun b => b.toNat))).map byteHex).flatten.length = 64
  rw [flatten_byteHex_length, sha256_length]

/-- A password whose length is not 64 always differs from its stored hash. -/
theorem hashPassword_ne_of_length (p : String) (h : p.length ≠ 64) :
    hashPassword p ≠ p := by
  intro he
  exact h (by rw [← he, hashPassword_length])

/-- createUser stores the hash, not the plaintext: reading the user back by
email yields a row whose password column is the hexadecimal sha256 digest of
the input. -/
theorem createUser_then_getUser (email password : String) (db : DB)
    (h : ∀ u ∈ db.users, u.email ≠ email) :
    ∀ r, (createUser email password db).1 = .ok r →
      getUser email (createUser email password db).2 = some r ∧
      r.password = some (hashPassword password) := by
  intro r hr
  have ha : db.users.any (fun u => u.email == email) = false := by
    rw [List.any_eq_false]
    intro u hu
    simpa using h u hu
  unfold createUser at hr ⊢
  rw [ha] at hr ⊢
  simp only [if_neg (by decide : ¬(false = true))] at hr ⊢
  cases hr
  constructor
  · unfold getUser
    show (db.users ++ [(⟨genId db.nextId, email, some (hashPassword password)⟩ : UserRow)]).find?
        (fun u => u.email == email) = _
    rw [List.find?_append]
    have h1 : db.users.find? (fun u => u.email == email) = none := by
      rw [List.find?_eq_none]
      intro u hu
      simpa using h u hu
    rw [h1]
    simp
  · rfl

end AiChatbot
